import Mathlib

/-!
Verification of swiftspec (fsspec SWIFT object-storage adapter) against its
natural-language specification.  The Python source in `swiftspec/core.py` is
shallowly embedded below: Python strings become `List Char`, byte strings
become `List Nat`, Python `None`-able strings become `Option (List Char)`,
JSON dicts become association lists `List (String × PyVal)`, and raising
code returns `Except`/`Option`.
-/

/-- Model of Python `s.split(sep, maxsplit)` on character lists: at most
`maxsplit` splits are performed, the remainder is kept as one piece.
Always returns a non-empty list; `pySplit sep n [] = [[]]` like Python's
`"".split(sep)` = `[""]`. -/
def pySplitAux (sep : Char) : List Char → Nat → List (List Char)
  | [], _ => [[]]
  | c :: rest, n =>
      match n with
      | 0 => [c :: rest]
      | n+1 =>
        if c = sep then [] :: pySplitAux sep rest n
        else
          match pySplitAux sep rest (n+1) with
          | [] => [[c]]
          | h :: t => (c :: h) :: t

/-- Python `s.split(sep, maxsplit)` with the arguments in source order. -/
def pySplit (sep : Char) (n : Nat) (s : List Char) : List (List Char) :=
  pySplitAux sep s n

/-- Model of Python's `x or None` applied to an optional string: the empty
string (falsy) collapses to `None`, as in `core.py` lines 36-37. -/
def orNone (o : Option (List Char)) : Option (List Char) :=
  match o with
  | some [] => none
  | x => x

/-- Model of Python truthiness of an optional string (`if self.object:` etc.):
`None` and the empty string are falsy. -/
def truthy (o : Option (List Char)) : Bool :=
  match o with
  | some s => !s.isEmpty
  | none => false

/-- Model of the external stdlib `urllib.parse.urlparse`, restricted to the
URL shapes this repository produces and consumes: `scheme://netloc/path`
with no query (`?`), fragment (`#`) or userinfo part.  Returns
`(scheme, netloc, path)`. -/
def urlparseM (url : List Char) : List Char × List Char × List Char :=
  match url.dropWhile (fun c => c ≠ ':') with
  | ':' :: '/' :: '/' :: r =>
      (url.takeWhile (fun c => c ≠ ':'),
       r.takeWhile (fun c => c ≠ '/'),
       r.dropWhile (fun c => c ≠ '/'))
  | ':' :: rest => (url.takeWhile (fun c => c ≠ ':'), [], rest)
  | _ => ([], [], url)

/-- Structured storage reference, embedding `SWIFTRef`'s fields (`core.py`
lines 22-37).  `account` is `split_parts[0]` verbatim (it may be
`some []`, Python's `""`); `container` and `object` go through `or None`. -/
structure SWIFTRef where
  host : List Char
  account : Option (List Char)
  container : Option (List Char)
  object : Option (List Char)
deriving DecidableEq, Repr

/-- Embedding of `SWIFTRef.__init__` (`core.py` lines 23-37): `urlparse`,
then for the `swift` scheme `parts.path.split("/", 3)[1:]`, for `https`
`parts.path.split("/", 4)[2:]`, else `ValueError` (modelled as `.error ()`);
pad with two `None`s and take indices 0, 1, 2 (index 0 verbatim, 1 and 2
through `or None`). -/
def parseRef (url : List Char) : Except Unit SWIFTRef :=
  match urlparseM url with
  | (scheme, netloc, path) =>
    if scheme = "swift".toList then
      let sp := (pySplit '/' 3 path).drop 1
      .ok { host := netloc, account := sp.get? 0,
            container := orNone (sp.get? 1), object := orNone (sp.get? 2) }
    else if scheme = "https".toList then
      let sp := (pySplit '/' 4 path).drop 2
      .ok { host := netloc, account := sp.get? 0,
            container := orNone (sp.get? 1), object := orNone (sp.get? 2) }
    else .error ()

/-- Model of Python f-string rendering of an optional string: `None` renders
as the four characters `"None"`. -/
def optStr (o : Option (List Char)) : List Char :=
  match o with
  | some s => s
  | none => "None".toList

/-- Embedding of the `swift_url` property (`core.py` lines 50-57); the
`if self.object:` / `elif self.container:` tests are Python truthiness. -/
def SWIFTRef.swift_url (r : SWIFTRef) : List Char :=
  if truthy r.object then
    "swift://".toList ++ r.host ++ '/' ::
      (optStr r.account ++ '/' :: (optStr r.container ++ '/' :: optStr r.object))
  else if truthy r.container then
    "swift://".toList ++ r.host ++ '/' :: (optStr r.account ++ '/' :: optStr r.container)
  else
    "swift://".toList ++ r.host ++ '/' :: optStr r.account

/-- Embedding of the `http_url` property (`core.py` lines 39-48). -/
def SWIFTRef.http_url (r : SWIFTRef) : List Char :=
  if truthy r.object then
    "https://".toList ++ r.host ++ '/' :: 'v' :: '1' :: '/' ::
      (optStr r.account ++ '/' :: (optStr r.container ++ '/' :: optStr r.object))
  else if truthy r.container then
    "https://".toList ++ r.host ++ '/' :: 'v' :: '1' :: '/' ::
      (optStr r.account ++ '/' :: optStr r.container)
  else
    "https://".toList ++ r.host ++ '/' :: 'v' :: '1' :: '/' :: optStr r.account

example : parseRef "swift://server/a/c/f/test.txt".toList =
    .ok ⟨"server".toList, some "a".toList, some "c".toList, some "f/test.txt".toList⟩ := by rfl

example : parseRef "https://server/v1/a/c/f/test.txt".toList =
    .ok ⟨"server".toList, some "a".toList, some "c".toList, some "f/test.txt".toList⟩ := by rfl

example : parseRef "swift://server/a/c/".toList =
    .ok ⟨"server".toList, some "a".toList, some "c".toList, none⟩ := by rfl

example : parseRef "swift://server/".toList =
    .ok ⟨"server".toList, some [], none, none⟩ := by rfl

example : parseRef "ftp://server/a".toList = .error () := by rfl

example : (SWIFTRef.mk "server".toList (some "a".toList) (some "c".toList) none).swift_url
    = "swift://server/a/c".toList := by rfl

/-- An auth entry: a `(url, token)` pair as stored in `self.auth`
(`core.py` lines 108, 141-147). -/
structure AuthEntry where
  url : List Char
  token : List Char
deriving DecidableEq, Repr

/-- Embedding of `SWIFTFileSystem.headers_for_url` (`core.py` lines 149-155):
walk `self.auth` in order, the first entry whose `url` is a literal prefix of
the request URL contributes `X-Auth-Token`; result `none` means no auth
header is added. -/
def headers_for_url (auth : List AuthEntry) (url : List Char) : Option (List Char) :=
  match auth with
  | [] => none
  | a :: rest => if a.url.isPrefixOf url then some a.token else headers_for_url rest url

/-- Embedding of `SWIFTFileSystem.get_tokens_from_env` (`core.py` lines
141-147): both `OS_AUTH_TOKEN` and `OS_STORAGE_URL` must be set and truthy
(non-empty), else no environment entry is produced. -/
def tokens_from_env (tok url : Option (List Char)) : List AuthEntry :=
  if truthy tok && truthy url then
    match tok, url with
    | some t, some u => [⟨u, t⟩]
    | _, _ => []
  else []

/-- Embedding of the auth-list construction in `SWIFTFileSystem.__init__`
(`core.py` line 108): `self.auth = (auth or []) + self.get_tokens_from_env()`,
so caller-supplied entries precede the environment-derived one. -/
def init_auth (auth : Option (List AuthEntry)) (env : List AuthEntry) : List AuthEntry :=
  (auth.getD []) ++ env

/-- Decimal rendering of a natural number, modelling Python `str(n)` /
f-string formatting for the non-negative ints used in headers. -/
def natStr (n : Nat) : List Char :=
  Nat.toDigits 10 n

/-- Embedding of the Range-header construction in `SWIFTFileSystem._cat_file`
(`core.py` lines 217-227).  `start`/`end` are optional Python ints; a failing
`assert x >= 0` is modelled as `.error ()`.  The result is the optional value
of the `Range` header. -/
def rangeHeader (s e : Option Int) : Except Unit (Option (List Char)) :=
  match s with
  | some sv =>
      if sv < 0 then .error () else
      match e with
      | some ev =>
          if ev < 0 then .error () else
          .ok (some ("bytes=".toList ++ natStr sv.toNat ++ '-' :: natStr ev.toNat))
      | none => .ok (some ("bytes=".toList ++ natStr sv.toNat ++ ['-']))
  | none =>
      match e with
      | some ev =>
          if ev < 0 then .error () else
          .ok (some ("bytes=0-".toList ++ natStr ev.toNat))
      | none => .ok none

/-- Python slice values produced by the repository's reference server model
(`test/test_swiftfilesystem.py`, `range_to_slice`): `slice(s, e)`,
`slice(s, None)`, or `slice(-e, None)`. -/
inductive PySlice where
  | both (s e : Nat)
  | openEnd (s : Nat)
  | fromEnd (e : Nat)
deriving DecidableEq, Repr

/-- Match of the regular expression `bytes=([0-9]*)-([0-9]*)` at the start of
a string (`re.match` ignores trailing text), returning the two digit groups. -/
def rangeGroups (s : List Char) : Option (List Char × List Char) :=
  if "bytes=".toList.isPrefixOf s then
    let rest := s.drop 6
    match rest.dropWhile (fun c => c.isDigit) with
    | '-' :: r2 => some (rest.takeWhile (fun c => c.isDigit), r2.takeWhile (fun c => c.isDigit))
    | _ => none
  else none

/-- Value of a decimal digit string, modelling Python `int(s)` on the
matched digit groups. -/
def digitsToNat (l : List Char) : Nat :=
  l.foldl (fun acc c => 10 * acc + (c.toNat - 48)) 0

/-- Modelled from the repository's reference server
(`test/test_swiftfilesystem.py`, `range_to_slice`): parse a `Range` header
into a Python slice.  Group truthiness is string non-emptiness; an
unparsable header (`ValueError`) is `none`. -/
def range_to_slice (h : List Char) : Option PySlice :=
  match rangeGroups h with
  | none => none
  | some (g1, g2) =>
      if g1 ≠ [] then
        if g2 ≠ [] then some (.both (digitsToNat g1) (digitsToNat g2))
        else some (.openEnd (digitsToNat g1))
      else
        if g2 ≠ [] then some (.fromEnd (digitsToNat g2))
        else none

/-- Application of a Python slice to a byte list: `data[s:e]`, `data[s:]`,
`data[-e:]` (where `-0` is `0`, so `fromEnd 0` is the whole list). -/
def applySlice (sl : PySlice) (data : List Nat) : List Nat :=
  match sl with
  | .both s e => (data.take e).drop s
  | .openEnd s => data.drop s
  | .fromEnd e => if e = 0 then data else data.drop (data.length - e)

/-- Modelled from the repository's reference server
(`test/test_swiftfilesystem.py`, `ObjectHandler.get`): the body returned for
a stored object, given the optional `Range` header sent by the client. -/
def mock_object_get (data : List Nat) (hdr : Option (List Char)) : Option (List Nat) :=
  match hdr with
  | none => some data
  | some h => (range_to_slice h).map (fun sl => applySlice sl data)

/-- Composition of `_cat_file`'s Range-header construction (`core.py` lines
214-232) with the repository's reference server: the bytes returned for a
stored object `data` when `cat_file` is called with optional `start`/`end`. -/
def cat_file_result (data : List Nat) (s e : Option Int) : Except Unit (Option (List Nat)) :=
  match rangeHeader s e with
  | .error u => .error u
  | .ok hdr => .ok (mock_object_get data hdr)

example : rangeHeader (some 3) (some 5) = .ok (some "bytes=3-5".toList) := by rfl

example : cat_file_result ("Hello World".toList.map Char.toNat) (some 3) (some 5)
    = .ok (some ("lo".toList.map Char.toNat)) := by rfl

example : cat_file_result ("Hello World".toList.map Char.toNat) none none
    = .ok (some ("Hello World".toList.map Char.toNat)) := by rfl

/-- JSON-ish values appearing in raw listing entries and info records:
strings, integers, or `null` (Python `None`). -/
inductive PyVal where
  | str : List Char → PyVal
  | int : Int → PyVal
  | null : PyVal
deriving DecidableEq, Repr

/-- A Python dict embedded as an association list preserving insertion
order; key access is `List.lookup`. -/
abbrev PyDict := List (String × PyVal)

/-- Keys `{"bytes", "name", "size", "type"}` excluded from metadata
passthrough in `swift_res_to_info` (`core.py` line 68). -/
def knownInfoKeys : List String := ["bytes", "name", "size", "type"]

/-- Embedding of `swift_res_to_info` (`core.py` lines 60-75).  A `subdir`
entry asserts a trailing `/` (assertion failure, or a non-string value, is
`none`), strips it and yields a directory record with `size` `None`; any
other entry yields a file record (`KeyError` on a missing `name`/`bytes` is
`none`) with every raw field outside `knownInfoKeys` copied through after
the three normalized fields, in raw order. -/
def swift_res_to_info (pfx : List Char) (res : PyDict) : Option PyDict :=
  match res.lookup "subdir" with
  | some (.str nm) =>
      if nm.getLast? = some '/' then
        some [("name", .str (pfx ++ nm.dropLast)), ("size", .null),
              ("type", .str "directory".toList)]
      else none
  | some _ => none
  | none =>
      match res.lookup "name", res.lookup "bytes" with
      | some (.str nm), some b =>
          some ([("name", .str (pfx ++ nm)), ("size", b), ("type", .str "file".toList)]
                ++ res.filter (fun kv => !(knownInfoKeys.contains kv.1)))
      | _, _ => none

example : swift_res_to_info "swift://s/a/c/".toList [("subdir", .str "f/".toList)]
    = some [("name", .str "swift://s/a/c/f".toList), ("size", .null),
            ("type", .str "directory".toList)] := by rfl

example : swift_res_to_info "swift://s/a/c/".toList
    [("bytes", .int 1179), ("hash", .str "1172".toList), ("name", .str "f/test.txt".toList)]
    = some [("name", .str "swift://s/a/c/f/test.txt".toList), ("size", .int 1179),
            ("type", .str "file".toList), ("hash", .str "1172".toList)] := by rfl

/-- Embedding of `SWIFTFileSystem._info` (`core.py` lines 287-306).  A
reference without an object component returns a synthetic directory record
with no network call; otherwise the `HEAD` response (status, parsed
`Content-Length`, `Etag` header) maps to a file record whose integrity-tag
key is spelled `"Etag"`, or to `FileNotFoundError` (`.error ()`) when the
status is not 200. -/
def info_result (r : SWIFTRef) (status : Nat) (contentLength : Int)
    (etag : List Char) : Except Unit PyDict :=
  if truthy r.object = false then
    .ok [("name", .str r.swift_url), ("type", .str "directory".toList), ("size", .null)]
  else if status ≠ 200 then .error ()
  else
    .ok [("name", .str r.swift_url), ("type", .str "file".toList),
         ("size", .int contentLength), ("Etag", .str etag)]

/-- Embedding of the info-record access in `SWIFTFileSystem.ukey`
(`core.py` line 285): `self.info(path)["ETag"]`.  A `none` result models the
`KeyError` Python raises when the key is absent; only on `some tag` would
`tokenize(path, self.kwargs, tag)` be computed and a key returned. -/
def ukey_tag (info : PyDict) : Option PyVal :=
  info.lookup "ETag"

/-- Embedding of the account-level branch of `SWIFTFileSystem._ls`
(`core.py` lines 165-182): each raw container record maps to a record with
`name = "swift://{host}/{account}/" + e["name"]`, `size = e["bytes"]` and
`type = "directory"`.  `KeyError` (or a non-string `name`) is `none`. -/
def ls_account_entry (host account : List Char) (e : PyDict) : Option PyDict :=
  match e.lookup "name", e.lookup "bytes" with
  | some (.str n), some b =>
      some [("name", .str ("swift://".toList ++ host ++ '/' :: (account ++ '/' :: n))),
            ("size", b), ("type", .str "directory".toList)]
  | _, _ => none

/-- The comprehension over all raw container records; a `none` from any
entry (Python `KeyError`) fails the whole listing. -/
def ls_account (host account : List Char) : List PyDict → Option (List PyDict)
  | [] => some []
  | e :: rest =>
      match ls_account_entry host account e with
      | none => none
      | some o => (ls_account host account rest).map (fun os => o :: os)

example : ls_account "server".toList "a1".toList
    [[("count", .int 1), ("bytes", .null), ("name", .str "c1".toList)]]
    = some [[("name", .str "swift://server/a1/c1".toList), ("size", .null),
             ("type", .str "directory".toList)]] := by rfl

/-- Failure modes of `_pipe_file` before any network interaction
(`core.py` lines 234-242): an unparsable path (`ValueError` from
`SWIFTRef`), a path without an object component (`ValueError`), or a
payload over the 5 GiB single-request ceiling (`NotImplementedError`). -/
inductive PipeErr where
  | badScheme
  | invalidTarget
  | tooLarge
deriving DecidableEq, Repr

/-- The PUT request `_pipe_file` hands to the shared session (`core.py`
lines 244-252): target URL, resolved auth token, `Content-Length` header
value, whether an `ETag` header (hex MD5 of `data`, computed by the external
`hashlib`) is attached, and the payload. -/
structure PutRequest where
  url : List Char
  token : Option (List Char)
  contentLength : List Char
  withEtag : Bool
  data : List Nat
deriving DecidableEq, Repr

/-- Embedding of `SWIFTFileSystem._pipe_file` up to the point where the
shared session is obtained (`core.py` lines 234-252): parse the path, reject
non-object targets, reject payloads larger than `5 * 2 ** 30` bytes, then
build the PUT request.  Only an `.ok` result reaches `set_session` and the
network; every `.error` is raised before any network call. -/
def pipe_file_plan (auth : List AuthEntry) (verify : Bool) (path : List Char)
    (data : List Nat) : Except PipeErr PutRequest :=
  match parseRef path with
  | .error _ => .error .badScheme
  | .ok ref =>
      if truthy ref.object = false then .error .invalidTarget
      else if data.length > 5 * 2 ^ 30 then .error .tooLarge
      else .ok { url := ref.http_url, token := headers_for_url auth ref.http_url,
                 contentLength := natStr data.length, withEtag := verify, data := data }

example : pipe_file_plan [] true "swift://s/a/c".toList [1, 2] = .error .invalidTarget := by rfl

example : pipe_file_plan [⟨"https://s/".toList, "tok".toList⟩] true
    "swift://s/a/c/o".toList [1, 2]
    = .ok ⟨"https://s/v1/a/c/o".toList, some "tok".toList, ['2'], true, [1, 2]⟩ := by rfl

/-! ## Helper lemmas -/

theorem headers_for_url_none (url : List Char) (auth : List AuthEntry)
    (h : ∀ a ∈ auth, a.url.isPrefixOf url = false) :
    headers_for_url auth url = none := by
  induction auth with
  | nil => rfl
  | cons a rest ih =>
      have ha := h a (List.mem_cons_self a rest)
      simp only [headers_for_url, ha, Bool.false_eq_true, if_false]
      exact ih (fun b hb => h b (List.mem_cons_of_mem a hb))

theorem headers_for_url_first (url : List Char) (l1 l2 : List AuthEntry) (a : AuthEntry)
    (ha : a.url.isPrefixOf url = true)
    (h1 : ∀ b ∈ l1, b.url.isPrefixOf url = false) :
    headers_for_url (l1 ++ a :: l2) url = some a.token := by
  induction l1 with
  | nil => simp [headers_for_url, ha]
  | cons b rest ih =>
      have hb := h1 b (List.mem_cons_self b rest)
      simp only [List.cons_append, headers_for_url, hb, Bool.false_eq_true, if_false]
      exact ih (fun c hc => h1 c (List.mem_cons_of_mem b hc))

theorem headers_for_url_append (url : List Char) (l1 l2 : List AuthEntry) :
    headers_for_url (l1 ++ l2) url
      = match headers_for_url l1 url with
        | some t => some t
        | none => headers_for_url l2 url := by
  induction l1 with
  | nil => rfl
  | cons a rest ih =>
      by_cases h : a.url.isPrefixOf url = true
      · simp [headers_for_url, h]
      · simp only [List.cons_append, headers_for_url, h, if_false]
        exact ih

theorem headers_for_url_isSome (url : List Char) (auth : List AuthEntry)
    (h : ∃ a ∈ auth, a.url.isPrefixOf url = true) :
    (headers_for_url auth url).isSome := by
  induction auth with
  | nil => rcases h with ⟨a, ha, _⟩; cases ha
  | cons a rest ih =>
      by_cases hpre : a.url.isPrefixOf url = true
      · simp [headers_for_url, hpre]
      · simp only [headers_for_url, hpre, if_false]
        rcases h with ⟨b, hb, hbp⟩
        rcases List.mem_cons.mp hb with h1 | h1
        · subst h1; exact absurd hbp hpre
        · exact ih ⟨b, h1, hbp⟩

/-! ## Claims C1-C4 -/

/-- C1: for the stored 11-byte object `b"Hello World"`, `cat_file` with
`start=3`, `end=5` sends `Range: bytes=3-5`; under the repository's own
reference server semantics (Python slice `[3:5]`) exactly the 2 bytes
`b"lo"` (indices 3 and 4) come back. -/
theorem claim_C1 :
    ("Hello World".toList.map Char.toNat).length = 11 ∧
    cat_file_result ("Hello World".toList.map Char.toNat) (some 3) (some 5)
      = .ok (some ("lo".toList.map Char.toNat)) ∧
    ("lo".toList.map Char.toNat).length = 2 :=
  ⟨rfl, rfl, rfl⟩

/-- C2 counterexample: with `start` absent and `end = 5`, `_cat_file`
(`core.py` line 227) does issue the bounded Range header `bytes=0-5`,
refuting the claim that a `bytes=0-<end>` request is never issued. -/
theorem claim_C2_cex :
    rangeHeader none (some 5) = .ok (some "bytes=0-5".toList) := rfl

/-- C2 amended: both bounds absent gives no Range header; `start` alone
gives the open-ended `bytes=<start>-`; both bounds give
`bytes=<start>-<end>`; and `end` alone gives the bounded `bytes=0-<end>`
(first-bytes semantics IS issued, contrary to the original claim). -/
theorem claim_C2_amended (s e : Int) (hs : 0 ≤ s) (he : 0 ≤ e) :
    rangeHeader none none = .ok none ∧
    rangeHeader (some s) none = .ok (some ("bytes=".toList ++ natStr s.toNat ++ ['-'])) ∧
    rangeHeader (some s) (some e)
      = .ok (some ("bytes=".toList ++ natStr s.toNat ++ '-' :: natStr e.toNat)) ∧
    rangeHeader none (some e) = .ok (some ("bytes=0-".toList ++ natStr e.toNat)) := by
  have hs' : ¬ s < 0 := not_lt.mpr hs
  have he' : ¬ e < 0 := not_lt.mpr he
  refine ⟨rfl, ?_, ?_, ?_⟩ <;> simp [rangeHeader, hs', he']

theorem claim_C2_amended_witness :
    rangeHeader none none = .ok none ∧
    rangeHeader (some 3) none = .ok (some ("bytes=".toList ++ natStr (Int.toNat 3) ++ ['-'])) ∧
    rangeHeader (some 3) (some 5)
      = .ok (some ("bytes=".toList ++ natStr (Int.toNat 3) ++ '-' :: natStr (Int.toNat 5))) ∧
    rangeHeader none (some 5) = .ok (some ("bytes=0-".toList ++ natStr (Int.toNat 5))) :=
  claim_C2_amended 3 5 (by decide) (by decide)

/-- C3: the auth resolver walks the constructed `self.auth` list in order;
the first entry whose `url` is a literal prefix of the request URL supplies
`X-Auth-Token`; no match yields no auth header; and since
`self.auth = (auth or []) + get_tokens_from_env()`, caller-supplied entries
precede environment-derived ones, so whenever any caller entry matches the
resolution agrees with resolving against the caller entries alone. -/
theorem claim_C3 (url : List Char) (caller env : List AuthEntry) :
    ((∀ a ∈ init_auth (some caller) env, a.url.isPrefixOf url = false) →
      headers_for_url (init_auth (some caller) env) url = none) ∧
    (∀ l1 l2 a, init_auth (some caller) env = l1 ++ a :: l2 →
      a.url.isPrefixOf url = true →
      (∀ b ∈ l1, b.url.isPrefixOf url = false) →
      headers_for_url (init_auth (some caller) env) url = some a.token) ∧
    ((∃ a ∈ caller, a.url.isPrefixOf url = true) →
      headers_for_url (init_auth (some caller) env) url = headers_for_url caller url) := by
  refine ⟨fun h => headers_for_url_none url _ h,
          fun l1 l2 a heq ha h1 => by rw [heq]; exact headers_for_url_first url l1 l2 a ha h1,
          fun h => ?_⟩
  have hsome := headers_for_url_isSome url caller h
  show headers_for_url (caller ++ env) url = headers_for_url caller url
  rw [headers_for_url_append url caller env]
  rcases Option.isSome_iff_exists.mp hsome with ⟨t, ht⟩
  rw [ht]

theorem claim_C3_witness :
    headers_for_url
      (init_auth (some [⟨"https://s/".toList, "t1".toList⟩]) [⟨"https://".toList, "t2".toList⟩])
      "https://s/x".toList = some "t1".toList ∧
    headers_for_url
      (init_auth (some [⟨"https://s/".toList, "t1".toList⟩]) [⟨"https://".toList, "t2".toList⟩])
      "https://s/x".toList
      = headers_for_url [⟨"https://s/".toList, "t1".toList⟩] "https://s/x".toList ∧
    headers_for_url (init_auth (some [⟨"https://s/".toList, "t1".toList⟩]) []) "ftp://other".toList
      = none :=
  ⟨(claim_C3 "https://s/x".toList [⟨"https://s/".toList, "t1".toList⟩]
      [⟨"https://".toList, "t2".toList⟩]).2.1 []
      [⟨"https://".toList, "t2".toList⟩] ⟨"https://s/".toList, "t1".toList⟩ rfl
      (by decide) (by decide),
   (claim_C3 "https://s/x".toList [⟨"https://s/".toList, "t1".toList⟩]
      [⟨"https://".toList, "t2".toList⟩]).2.2 ⟨⟨"https://s/".toList, "t1".toList⟩, by decide⟩,
   (claim_C3 "ftp://other".toList [⟨"https://s/".toList, "t1".toList⟩] []).1 (by decide)⟩

/-- C4 counterexample: with entries `("a", "t1")` then `("ab", "t2")` and
URL `"abc"`, both prefixes match and `"ab"` is strictly longer, yet the
resolver returns `"t1"` — selection is first-match in order, not
longest-match. -/
theorem claim_C4_cex :
    headers_for_url [⟨['a'], ['t', '1']⟩, ⟨['a', 'b'], ['t', '2']⟩] ['a', 'b', 'c']
      = some ['t', '1'] ∧
    (['a', 'b'] : List Char).isPrefixOf ['a', 'b', 'c'] = true ∧
    (['a'] : List Char).length < (['a', 'b'] : List Char).length ∧
    (['t', '1'] : List Char) ≠ ['t', '2'] := by decide

/-- C4 amended: the `X-Auth-Token` value is selected by the FIRST entry in
iteration order whose `url` is a literal prefix of the request URL
(`core.py` lines 151-154), not by the longest matching prefix. -/
theorem claim_C4_amended (url : List Char) (l1 l2 : List AuthEntry) (a : AuthEntry)
    (ha : a.url.isPrefixOf url = true)
    (h1 : ∀ b ∈ l1, b.url.isPrefixOf url = false) :
    headers_for_url (l1 ++ a :: l2) url = some a.token :=
  headers_for_url_first url l1 l2 a ha h1

theorem claim_C4_amended_witness :
    headers_for_url ([⟨['x'], ['t', '0']⟩] ++ ⟨['a'], ['t', '1']⟩ :: [⟨['a', 'b'], ['t', '2']⟩])
      ['a', 'b', 'c'] = some ['t', '1'] :=
  claim_C4_amended ['a', 'b', 'c'] [⟨['x'], ['t', '0']⟩] [⟨['a', 'b'], ['t', '2']⟩]
    ⟨['a'], ['t', '1']⟩ (by decide) (by decide)

/-! ## Claims C7-C10 -/

theorem lookup_append_dict (l1 l2 : PyDict) (k : String) :
    (l1 ++ l2).lookup k
      = match l1.lookup k with
        | some v => some v
        | none => l2.lookup k := by
  induction l1 with
  | nil => rfl
  | cons kv rest ih =>
      by_cases h : k == kv.1
      · simp [List.lookup, h]
      · simp only [List.cons_append, List.lookup, h]
        exact ih

theorem lookup_filter_passthrough (res : PyDict) (k : String)
    (hk : knownInfoKeys.contains k = false) :
    (res.filter (fun kv => !(knownInfoKeys.contains kv.1))).lookup k = res.lookup k := by
  induction res with
  | nil => rfl
  | cons kv rest ih =>
      obtain ⟨k1, v1⟩ := kv
      rw [List.filter_cons]
      by_cases hkv : knownInfoKeys.contains k1
      · have hkv2 : (!(knownInfoKeys.contains (k1, v1).1)) = false := by
          simp only [hkv, Bool.not_true]
        have hne : (k == k1) = false := by
          rcases eq_or_ne k k1 with h | h
          · subst h; rw [hk] at hkv; cases hkv
          · exact beq_eq_false_iff_ne.mpr h
        rw [if_neg (by rw [hkv2]; exact Bool.false_ne_true)]
        simp only [List.lookup, hne]
        exact ih
      · have hkv2 : (!(knownInfoKeys.contains (k1, v1).1)) = true := by
          simp only [Bool.not_eq_true'] at *
          exact Bool.not_eq_true _ ▸ (by simpa using hkv)
        rw [if_pos hkv2]
        by_cases h : (k == k1) = true
        · simp only [List.lookup, h]
        · have h' : (k == k1) = false := by
            cases hb : (k == k1)
            · rfl
            · exact absurd hb h
          simp only [List.lookup, h']
          exact ih

/-- C7: listing translation.  A raw entry with a `subdir` marker (a string
with trailing `/`) yields a directory record named `prefix + marker` with
the `/` stripped and a `None` size; any other raw entry yields a file record
named `prefix + name` with `size = bytes`, and every raw field whose key is
outside `{bytes, name, size, type}` is readable from the output unchanged. -/
theorem claim_C7 (pfx : List Char) (res : PyDict) :
    (∀ m, res.lookup "subdir" = some (.str m) → m.getLast? = some '/' →
      swift_res_to_info pfx res
        = some [("name", .str (pfx ++ m.dropLast)), ("size", .null),
                ("type", .str "directory".toList)]) ∧
    (res.lookup "subdir" = none →
      ∀ nm b, res.lookup "name" = some (.str nm) → res.lookup "bytes" = some b →
      ∃ out, swift_res_to_info pfx res = some out ∧
        out.lookup "name" = some (.str (pfx ++ nm)) ∧
        out.lookup "size" = some b ∧
        out.lookup "type" = some (.str "file".toList) ∧
        ∀ k, knownInfoKeys.contains k = false → out.lookup k = res.lookup k) := by
  constructor
  · intro m h1 h2
    unfold swift_res_to_info
    rw [h1]
    simp [h2]
  · intro h0 nm b h1 h2
    refine ⟨[("name", .str (pfx ++ nm)), ("size", b), ("type", .str "file".toList)]
              ++ res.filter (fun kv => !(knownInfoKeys.contains kv.1)),
            ?_, rfl, rfl, rfl, ?_⟩
    · unfold swift_res_to_info
      rw [h0, h1, h2]
    intro k hk
    have hn : (k == "name") = false := by
      rcases eq_or_ne k "name" with h | h
      · subst h; simp [knownInfoKeys] at hk
      · exact beq_eq_false_iff_ne.mpr h
    have hs : (k == "size") = false := by
      rcases eq_or_ne k "size" with h | h
      · subst h; simp [knownInfoKeys] at hk
      · exact beq_eq_false_iff_ne.mpr h
    have ht : (k == "type") = false := by
      rcases eq_or_ne k "type" with h | h
      · subst h; simp [knownInfoKeys] at hk
      · exact beq_eq_false_iff_ne.mpr h
    rw [lookup_append_dict]
    simp only [List.lookup, hn, hs, ht]
    exact lookup_filter_passthrough res k hk

theorem claim_C7_witness :
    swift_res_to_info "swift://s/a/c/".toList [("subdir", .str "f/".toList)]
      = some [("name", .str ("swift://s/a/c/".toList ++ "f/".toList.dropLast)),
              ("size", .null), ("type", .str "directory".toList)] ∧
    ∃ out,
      swift_res_to_info "swift://s/a/c/".toList
        [("bytes", .int 1179), ("hash", .str "1172".toList), ("name", .str "f/test.txt".toList)]
        = some out ∧
      out.lookup "name" = some (.str ("swift://s/a/c/".toList ++ "f/test.txt".toList)) ∧
      out.lookup "size" = some (.int 1179) ∧
      out.lookup "type" = some (.str "file".toList) ∧
      ∀ k, knownInfoKeys.contains k = false →
        out.lookup k
          = ([("bytes", .int 1179), ("hash", .str "1172".toList),
              ("name", .str "f/test.txt".toList)] : PyDict).lookup k :=
  ⟨(claim_C7 "swift://s/a/c/".toList [("subdir", .str "f/".toList)]).1
      "f/".toList rfl rfl,
   (claim_C7 "swift://s/a/c/".toList
      [("bytes", .int 1179), ("hash", .str "1172".toList),
       ("name", .str "f/test.txt".toList)]).2 rfl
      "f/test.txt".toList (.int 1179) rfl rfl⟩

/-- C9: the code contradicts the claim.  `ukey` reads
`self.info(path)["ETag"]` but every record `_info` can return stores the
integrity tag under the key `"Etag"` (or no tag at all for directories), so
the lookup `ukey` performs always fails (Python `KeyError`) and no cache key
is ever returned. -/
theorem claim_C9 (r : SWIFTRef) (status : Nat) (contentLength : Int)
    (etag : List Char) (out : PyDict)
    (h : info_result r status contentLength etag = .ok out) :
    ukey_tag out = none := by
  unfold info_result at h
  by_cases h1 : truthy r.object = false
  · rw [if_pos h1] at h
    cases h
    rfl
  · rw [if_neg h1] at h
    by_cases h2 : status ≠ 200
    · rw [if_pos h2] at h; cases h
    · rw [if_neg h2] at h
      cases h
      rfl

theorem claim_C9_witness :
    ukey_tag [("name", .str "swift://server/a1/c1/hello".toList),
              ("type", .str "file".toList), ("size", .int 11),
              ("Etag", .str "abc".toList)] = none :=
  claim_C9 ⟨"server".toList, some "a1".toList, some "c1".toList, some "hello".toList⟩
    200 11 "abc".toList _ rfl

/-- C10: every record of an account-level listing has type `"directory"`
yet carries a `size` equal to the raw container record's `bytes` value
(which may be `null`), copied straight from the server response —
unlike the size-less pseudo-directory records of `swift_res_to_info`. -/
theorem claim_C10 (host account : List Char) (entries : List PyDict)
    (out : List PyDict) (h : ls_account host account entries = some out) :
    List.Forall₂ (fun e o =>
      o.lookup "type" = some (.str "directory".toList) ∧
      o.lookup "size" = e.lookup "bytes") entries out := by
  induction entries generalizing out with
  | nil =>
      cases h
      constructor
  | cons e rest ih =>
      unfold ls_account at h
      rcases he : ls_account_entry host account e with _ | o
      · rw [he] at h; cases h
      · rw [he] at h
        rcases hr : ls_account host account rest with _ | os
        · rw [hr] at h; cases h
        · rw [hr] at h
          cases h
          refine List.Forall₂.cons ?_ (ih os hr)
          unfold ls_account_entry at he
          rcases h1 : e.lookup "name" with _ | v
          · rw [h1] at he; cases he
          · rcases h2 : e.lookup "bytes" with _ | b
            · rw [h1, h2] at he; cases v <;> cases he
            · rw [h1, h2] at he
              cases v with
              | str n => cases he; exact ⟨rfl, rfl⟩
              | int i => cases he
              | null => cases he

theorem claim_C10_witness :
    List.Forall₂ (fun (e o : PyDict) =>
      o.lookup "type" = some (.str "directory".toList) ∧
      o.lookup "size" = e.lookup "bytes")
      [[("count", .int 1), ("bytes", .null), ("name", .str "c1".toList)]]
      [[("name", .str "swift://server/a1/c1".toList), ("size", .null),
        ("type", .str "directory".toList)]] :=
  claim_C10 "server".toList "a1".toList
    [[("count", .int 1), ("bytes", .null), ("name", .str "c1".toList)]]
    [[("name", .str "swift://server/a1/c1".toList), ("size", .null),
      ("type", .str "directory".toList)]] rfl

/-! ## Claim C8 -/

/-- C8: for an object-bearing path with a payload over `5 * 2 ** 30` bytes,
`_pipe_file` fails with the unsupported-size error (`NotImplementedError`,
`core.py` lines 239-240).  The check precedes `set_session` and
`session.put`, so the error (a non-`.ok` plan) means the shared session is
never obtained and no HTTP request is sent. -/
theorem claim_C8 (auth : List AuthEntry) (verify : Bool) (path : List Char)
    (data : List Nat) (r : SWIFTRef)
    (hp : parseRef path = .ok r) (hobj : truthy r.object = true)
    (hsz : data.length > 5 * 2 ^ 30) :
    pipe_file_plan auth verify path data = .error .tooLarge := by
  unfold pipe_file_plan
  rw [hp]
  simp only [hobj, hsz]
  simp [hobj]

theorem claim_C8_witness :
    pipe_file_plan [] true "swift://s/a/c/o".toList (List.replicate (5 * 2 ^ 30 + 1) 0)
      = .error .tooLarge :=
  claim_C8 [] true "swift://s/a/c/o".toList (List.replicate (5 * 2 ^ 30 + 1) 0)
    ⟨"s".toList, some "a".toList, some "c".toList, some "o".toList⟩
    rfl rfl (by rw [List.length_replicate]; exact Nat.lt_succ_self _)

/-! ## Parsing lemmas for C5 and C6 -/

theorem pySplit_zero (sep : Char) (s : List Char) : pySplit sep 0 s = [s] := by
  cases s <;> rfl

theorem pySplit_no_sep (sep : Char) (s : List Char) (h : sep ∉ s) :
    ∀ n, pySplit sep n s = [s] := by
  induction s with
  | nil => intro n; cases n <;> rfl
  | cons c rest ih =>
      intro n
      cases n with
      | zero => rfl
      | succ m =>
          have hcs : ¬ c = sep := fun hc => h (hc ▸ List.mem_cons_self c rest)
          have hrec : pySplitAux sep rest (m+1) = [rest] :=
            ih (fun hm => h (List.mem_cons_of_mem c hm)) (m+1)
          show pySplitAux sep (c :: rest) (m+1) = [c :: rest]
          simp only [pySplitAux, if_neg hcs, hrec]

theorem pySplit_append_sep (sep : Char) (pre rest : List Char) (hpre : sep ∉ pre) (n : Nat) :
    pySplit sep (n+1) (pre ++ sep :: rest) = pre :: pySplit sep n rest := by
  induction pre with
  | nil =>
      show pySplitAux sep (sep :: rest) (n+1) = [] :: pySplitAux sep rest n
      simp [pySplitAux]
  | cons c cs ih =>
      have hcs : ¬ c = sep := fun hc => hpre (hc ▸ List.mem_cons_self c cs)
      have hrec := ih (fun hm => hpre (List.mem_cons_of_mem c hm))
      show pySplitAux sep (c :: (cs ++ sep :: rest)) (n+1)
        = (c :: cs) :: pySplitAux sep rest n
      simp only [pySplitAux, if_neg hcs]
      rw [show pySplitAux sep (cs ++ sep :: rest) (n+1)
            = cs :: pySplitAux sep rest n from hrec]

theorem takeWhile_ne_append (x : Char) (l rest : List Char) (hl : x ∉ l) :
    (l ++ x :: rest).takeWhile (fun c => c ≠ x) = l := by
  induction l with
  | nil => rw [List.nil_append, List.takeWhile_cons_of_neg (by simp)]
  | cons a as ih =>
      have hax : a ≠ x := fun h => hl (h ▸ List.mem_cons_self a as)
      rw [List.cons_append, List.takeWhile_cons_of_pos (by simpa using hax),
          ih (fun h => hl (List.mem_cons_of_mem a h))]

theorem dropWhile_ne_append (x : Char) (l rest : List Char) (hl : x ∉ l) :
    (l ++ x :: rest).dropWhile (fun c => c ≠ x) = x :: rest := by
  induction l with
  | nil => rw [List.nil_append, List.dropWhile_cons_of_neg (by simp)]
  | cons a as ih =>
      have hax : a ≠ x := fun h => hl (h ▸ List.mem_cons_self a as)
      rw [List.cons_append, List.dropWhile_cons_of_pos (by simpa using hax),
          ih (fun h => hl (List.mem_cons_of_mem a h))]

theorem urlparse_swift (hst rest : List Char) (hh : '/' ∉ hst) :
    urlparseM ("swift://".toList ++ hst ++ '/' :: rest)
      = ("swift".toList, hst, '/' :: rest) := by
  show ("swift".toList, (hst ++ '/' :: rest).takeWhile (fun c => c ≠ '/'),
        (hst ++ '/' :: rest).dropWhile (fun c => c ≠ '/'))
    = ("swift".toList, hst, '/' :: rest)
  rw [takeWhile_ne_append '/' hst rest hh, dropWhile_ne_append '/' hst rest hh]

theorem urlparse_https (hst rest : List Char) (hh : '/' ∉ hst) :
    urlparseM ("https://".toList ++ hst ++ '/' :: rest)
      = ("https".toList, hst, '/' :: rest) := by
  show ("https".toList, (hst ++ '/' :: rest).takeWhile (fun c => c ≠ '/'),
        (hst ++ '/' :: rest).dropWhile (fun c => c ≠ '/'))
    = ("https".toList, hst, '/' :: rest)
  rw [takeWhile_ne_append '/' hst rest hh, dropWhile_ne_append '/' hst rest hh]

theorem parseRef_swift (hst p : List Char) (hh : '/' ∉ hst) :
    parseRef ("swift://".toList ++ hst ++ '/' :: p)
      = .ok { host := hst,
              account := ((pySplit '/' 3 ('/' :: p)).drop 1).get? 0,
              container := orNone (((pySplit '/' 3 ('/' :: p)).drop 1).get? 1),
              object := orNone (((pySplit '/' 3 ('/' :: p)).drop 1).get? 2) } := by
  unfold parseRef
  rw [urlparse_swift hst p hh]
  simp

theorem parseRef_https (hst p : List Char) (hh : '/' ∉ hst) :
    parseRef ("https://".toList ++ hst ++ '/' :: p)
      = .ok { host := hst,
              account := ((pySplit '/' 4 ('/' :: p)).drop 2).get? 0,
              container := orNone (((pySplit '/' 4 ('/' :: p)).drop 2).get? 1),
              object := orNone (((pySplit '/' 4 ('/' :: p)).drop 2).get? 2) } := by
  unfold parseRef
  rw [urlparse_https hst p hh]
  simp

theorem orNone_some_of_ne_nil (x : List Char) (h : x ≠ []) : orNone (some x) = some x := by
  cases x with
  | nil => exact absurd rfl h
  | cons a as => rfl

theorem orNone_ne_some_nil (x : Option (List Char)) : orNone x ≠ some [] := by
  cases x with
  | none => simp [orNone]
  | some l => cases l <;> simp [orNone]

/-! ## Claims C5 and C6 -/

/-- C5 counterexample: parsing `swift://server/` (a URL whose trailing
account component is missing) yields `account = some ""` — the empty
string, not an absent field — so not every missing trailing component
normalizes to absent. -/
theorem claim_C5_cex :
    parseRef "swift://server/".toList = .ok ⟨"server".toList, some [], none, none⟩ ∧
    (SWIFTRef.mk "server".toList (some []) none none).account ≠ none :=
  ⟨rfl, by simp⟩

/-- C5 amended: for the native scheme the first path segment is the
account, for HTTPS the first segment is discarded and the second is the
account; the next segment is the container and the un-resplit remainder
(separators preserved) is the object; the container and object — but not
the account — are normalized by `or None`, so they are absent rather than
empty when missing and can never be the empty string. -/
theorem claim_C5_amended :
    (∀ hst a : List Char, '/' ∉ hst → '/' ∉ a →
      parseRef ("swift://".toList ++ hst ++ '/' :: a)
        = .ok ⟨hst, some a, none, none⟩) ∧
    (∀ hst a c : List Char, '/' ∉ hst → '/' ∉ a → '/' ∉ c →
      parseRef ("swift://".toList ++ hst ++ '/' :: (a ++ '/' :: c))
        = .ok ⟨hst, some a, orNone (some c), none⟩) ∧
    (∀ hst a c o : List Char, '/' ∉ hst → '/' ∉ a → '/' ∉ c →
      parseRef ("swift://".toList ++ hst ++ '/' :: (a ++ '/' :: (c ++ '/' :: o)))
        = .ok ⟨hst, some a, orNone (some c), orNone (some o)⟩) ∧
    (∀ hst x a c o : List Char, '/' ∉ hst → '/' ∉ x → '/' ∉ a → '/' ∉ c →
      parseRef ("https://".toList ++ hst ++ '/' :: (x ++ '/' :: (a ++ '/' :: (c ++ '/' :: o))))
        = .ok ⟨hst, some a, orNone (some c), orNone (some o)⟩) ∧
    (∀ url r, parseRef url = .ok r → r.container ≠ some [] ∧ r.object ≠ some []) := by
  refine ⟨?_, ?_, ?_, ?_, ?_⟩
  · intro hst a hh ha
    rw [parseRef_swift hst a hh]
    rw [show pySplit '/' 3 ('/' :: a) = [] :: pySplit '/' 2 a from rfl,
        pySplit_no_sep '/' a ha 2]
    rfl
  · intro hst a c hh ha hc
    rw [parseRef_swift hst (a ++ '/' :: c) hh]
    rw [show pySplit '/' 3 ('/' :: (a ++ '/' :: c)) = [] :: pySplit '/' 2 (a ++ '/' :: c)
          from rfl,
        pySplit_append_sep '/' a c ha 1, pySplit_no_sep '/' c hc 1]
    rfl
  · intro hst a c o hh ha hc
    rw [parseRef_swift hst (a ++ '/' :: (c ++ '/' :: o)) hh]
    rw [show pySplit '/' 3 ('/' :: (a ++ '/' :: (c ++ '/' :: o)))
          = [] :: pySplit '/' 2 (a ++ '/' :: (c ++ '/' :: o)) from rfl,
        pySplit_append_sep '/' a (c ++ '/' :: o) ha 1,
        pySplit_append_sep '/' c o hc 0, pySplit_zero]
    rfl
  · intro hst x a c o hh hx ha hc
    rw [parseRef_https hst (x ++ '/' :: (a ++ '/' :: (c ++ '/' :: o))) hh]
    rw [show pySplit '/' 4 ('/' :: (x ++ '/' :: (a ++ '/' :: (c ++ '/' :: o))))
          = [] :: pySplit '/' 3 (x ++ '/' :: (a ++ '/' :: (c ++ '/' :: o))) from rfl,
        pySplit_append_sep '/' x (a ++ '/' :: (c ++ '/' :: o)) hx 2,
        pySplit_append_sep '/' a (c ++ '/' :: o) ha 1,
        pySplit_append_sep '/' c o hc 0, pySplit_zero]
    rfl
  · intro url r h
    unfold parseRef at h
    rcases hu : urlparseM url with ⟨s1, s2, s3⟩
    rw [hu] at h
    dsimp only at h
    by_cases h1 : s1 = "swift".toList
    · rw [if_pos h1] at h
      cases h
      exact ⟨orNone_ne_some_nil _, orNone_ne_some_nil _⟩
    · rw [if_neg h1] at h
      by_cases h2 : s1 = "https".toList
      · rw [if_pos h2] at h
        cases h
        exact ⟨orNone_ne_some_nil _, orNone_ne_some_nil _⟩
      · rw [if_neg h2] at h
        cases h

theorem claim_C5_amended_witness :
    parseRef ("swift://".toList ++ "server".toList ++ '/' ::
        ("a".toList ++ '/' :: ("c".toList ++ '/' :: "f/test.txt".toList)))
      = .ok ⟨"server".toList, some "a".toList, orNone (some "c".toList),
             orNone (some "f/test.txt".toList)⟩ :=
  claim_C5_amended.2.2.1 "server".toList "a".toList "c".toList "f/test.txt".toList
    (by decide) (by decide) (by decide)

/-- C6: round-trip stability.  For every reference satisfying the validity
invariant (account present; object only with container; segments non-empty
and separator-free where the wire format requires), rendering with
`swift_url` and parsing again restores exactly the same host, account,
container and object — covering 0, 1 and 2-or-more path segments after the
account. -/
theorem claim_C6 (hst a : List Char) (c o : Option (List Char))
    (hh : '/' ∉ hst) (ha : '/' ∉ a)
    (hc : ∀ x, c = some x → x ≠ [] ∧ '/' ∉ x)
    (ho : ∀ x, o = some x → x ≠ [])
    (hoc : o.isSome → c.isSome) :
    parseRef (SWIFTRef.swift_url ⟨hst, some a, c, o⟩) = .ok ⟨hst, some a, c, o⟩ := by
  cases o with
  | some ov =>
      have hov : ov ≠ [] := ho ov rfl
      cases c with
      | none => simp at hoc
      | some cv =>
          obtain ⟨hcv, hcsl⟩ := hc cv rfl
          have htro : truthy (some ov) = true := by
            cases ov with
            | nil => exact absurd rfl hov
            | cons z zs => rfl
          have hurl : SWIFTRef.swift_url ⟨hst, some a, some cv, some ov⟩
              = "swift://".toList ++ hst ++ '/' :: (a ++ '/' :: (cv ++ '/' :: ov)) := by
            simp [SWIFTRef.swift_url, htro, optStr]
          rw [hurl, parseRef_swift hst (a ++ '/' :: (cv ++ '/' :: ov)) hh]
          rw [show pySplit '/' 3 ('/' :: (a ++ '/' :: (cv ++ '/' :: ov)))
                = [] :: pySplit '/' 2 (a ++ '/' :: (cv ++ '/' :: ov)) from rfl,
              pySplit_append_sep '/' a (cv ++ '/' :: ov) ha 1,
              pySplit_append_sep '/' cv ov hcsl 0, pySplit_zero]
          show Except.ok (SWIFTRef.mk hst (some a) (orNone (some cv)) (orNone (some ov))) = _
          rw [orNone_some_of_ne_nil cv hcv, orNone_some_of_ne_nil ov hov]
  | none =>
      cases c with
      | some cv =>
          obtain ⟨hcv, hcsl⟩ := hc cv rfl
          have htrc : truthy (some cv) = true := by
            cases cv with
            | nil => exact absurd rfl hcv
            | cons z zs => rfl
          have hurl : SWIFTRef.swift_url ⟨hst, some a, some cv, none⟩
              = "swift://".toList ++ hst ++ '/' :: (a ++ '/' :: cv) := by
            simp [SWIFTRef.swift_url, truthy, htrc, optStr, hcv]
          rw [hurl, parseRef_swift hst (a ++ '/' :: cv) hh]
          rw [show pySplit '/' 3 ('/' :: (a ++ '/' :: cv))
                = [] :: pySplit '/' 2 (a ++ '/' :: cv) from rfl,
              pySplit_append_sep '/' a cv ha 1, pySplit_no_sep '/' cv hcsl 1]
          show Except.ok (SWIFTRef.mk hst (some a) (orNone (some cv)) none) = _
          rw [orNone_some_of_ne_nil cv hcv]
      | none =>
          have hurl : SWIFTRef.swift_url ⟨hst, some a, none, none⟩
              = "swift://".toList ++ hst ++ '/' :: a := by
            simp [SWIFTRef.swift_url, truthy, optStr]
          rw [hurl, parseRef_swift hst a hh]
          rw [show pySplit '/' 3 ('/' :: a) = [] :: pySplit '/' 2 a from rfl,
              pySplit_no_sep '/' a ha 2]
          rfl

theorem claim_C6_witness :
    parseRef (SWIFTRef.swift_url
        ⟨"server".toList, some "a".toList, some "c".toList, some "f/test.txt".toList⟩)
      = .ok ⟨"server".toList, some "a".toList, some "c".toList, some "f/test.txt".toList⟩ :=
  claim_C6 "server".toList "a".toList (some "c".toList) (some "f/test.txt".toList)
    (by decide) (by decide)
    (fun x hx => by cases hx; exact ⟨by decide, by decide⟩)
    (fun x hx => by cases hx; decide)
    (fun _ => rfl)
